import Mathlib

/- Formal model of the metrics-aggregation core of the runtimes-benchmarks
repository: `benchmark-suites/metrics-interface.js` (`formatMetrics`,
`saveResults`) and the persistence tails of the per-runtime `benchmark`
utilities (Node `benchmark-suites/node/utils/metrics.mjs`, Bun metrics
utilities).

Modelling conventions:
* JavaScript numbers are modelled as exact rationals extended with the
  IEEE specials `NaN`, `Infinity`, `-Infinity`; the rounding of IEEE
  doubles is ignored (for the percentile index computations
  `Math.floor(N * 0.95)` / `Math.floor(N * 0.99)` the double result and
  the exact rational result have the same floor for every realistic `N`,
  because the exact product is always at least 1/100 away from the next
  integer below it while the double rounding error is many orders of
  magnitude smaller).
* A JavaScript value that can be a number, the string `'unknown'` (or
  another string), or `undefined` is modelled by the inductive `JSVal`;
  out-of-range array indexing yields `JSVal.undefined`, matching JS.
* Ambient reads performed by `formatMetrics` (`process.platform`,
  `process.env.CONTAINER`, `new Date().toISOString()`) are passed as
  explicit parameters.
* `Array.prototype.sort` with the comparator `(a, b) => a - b` produces
  the ascending reordering of the array; it is modelled with
  `List.insertionSort (· ≤ ·)` (any two sorted permutations of a list of
  rationals are equal, so the choice of algorithm is irrelevant).
* File-system effects are modelled by passing the outcome the write
  would have (`WriteOutcome`) as an explicit parameter.
-/

namespace RuntimeBench

/-- A JavaScript value as it occurs in the metrics pipeline: a (finite)
number, `NaN`, `Infinity`, `-Infinity`, a string, or `undefined`. -/
inductive JSVal where
  | num (q : ℚ)
  | nan
  | inf
  | ninf
  | str (s : String)
  | undefined
deriving DecidableEq, Repr

/-- JS binary `-` on the values this module stores in snapshot fields.
Both operands are coerced with `ToNumber`; the strings this repository
ever stores in numeric positions (`'unknown'`, `'…MB'`) and `undefined`
all coerce to `NaN`, so every case involving a string, `undefined` or
`NaN` yields `NaN`. -/
def jsSub : JSVal → JSVal → JSVal
  | .num a, .num b => .num (a - b)
  | .num _, .inf => .ninf
  | .num _, .ninf => .inf
  | .inf, .num _ => .inf
  | .inf, .ninf => .inf
  | .ninf, .num _ => .ninf
  | .ninf, .inf => .ninf
  | _, _ => .nan

/-- JS numeric `+` as used in the statistics folds (both operands are
numbers there; string concatenation never occurs in those folds). -/
def jsAdd : JSVal → JSVal → JSVal
  | .num a, .num b => .num (a + b)
  | .num _, .inf => .inf
  | .inf, .num _ => .inf
  | .inf, .inf => .inf
  | .num _, .ninf => .ninf
  | .ninf, .num _ => .ninf
  | .ninf, .ninf => .ninf
  | _, _ => .nan

/-- `Math.pow(x, 2)` on the values reaching it in this module. -/
def jsSq : JSVal → JSVal
  | .num a => .num (a ^ 2)
  | .inf => .inf
  | .ninf => .inf
  | _ => .nan

/-- JS `/` where the divisor is an array length `n : ℕ`.  Matches JS on
the cases that occur: `0 / 0 = NaN`, `q / 0 = ±Infinity` for `q ≠ 0`,
ordinary division otherwise; `NaN` propagates. -/
def jsDivLen : JSVal → ℕ → JSVal
  | .num a, n =>
      if n = 0 then (if a = 0 then .nan else if 0 < a then .inf else .ninf)
      else .num (a / n)
  | .inf, _ => .inf
  | .ninf, _ => .ninf
  | _, _ => .nan

/-- JS array indexing `l[i]`: the element when `i` is in range,
`undefined` otherwise. -/
def jsIndex (l : List ℚ) (i : ℕ) : JSVal :=
  match l[i]? with
  | some q => .num q
  | none => .undefined

/-- `Math.floor` on the non-negative arguments this module produces. -/
def jsFloorNat (q : ℚ) : ℕ := ⌊q⌋₊

/-- JS truthiness of a `JSVal` (`0`, `NaN`, `''` and `undefined` are
falsy). -/
def JSVal.truthy : JSVal → Bool
  | .num q => q ≠ 0
  | .nan => false
  | .inf => true
  | .ninf => true
  | .str s => s ≠ ""
  | .undefined => false

/-- JS `a || b`: `a` when truthy, else `b`. -/
def jsOr (a b : JSVal) : JSVal := if a.truthy then a else b

/-- A JS number produced by `Math.sqrt` (possibly irrational). -/
inductive JSReal where
  | num (r : ℝ)
  | nan
  | inf

/-- `Math.sqrt`: `NaN` for `NaN` and negative inputs (and for the
string/`undefined` values that `ToNumber` sends to `NaN`),
`Infinity` for `Infinity`. -/
noncomputable def jsSqrt : JSVal → JSReal
  | .num q => if q < 0 then .nan else .num (Real.sqrt q)
  | .inf => .inf
  | _ => .nan

/-- A memory snapshot as produced by the per-runtime `getMemoryUsage`
collaborators; each field may be a number or (on runtimes that cannot
measure it) the string `'unknown'`. -/
structure MemSnapshot where
  rss : JSVal
  heapTotal : JSVal
  heapUsed : JSVal
  external : JSVal
  totalMemory : JSVal
deriving DecidableEq, Repr

/-- The `memoryUsage` argument of `formatMetrics`: whole-run before/after
snapshots. -/
structure MemPair where
  before : MemSnapshot
  after : MemSnapshot
deriving DecidableEq, Repr

/-- A CPU snapshot (the fields `formatMetrics` reads). -/
structure CpuSnapshot where
  user : JSVal
  system : JSVal
deriving DecidableEq, Repr

/-- The `cpuUsage` argument of `formatMetrics`. -/
structure CpuPair where
  before : CpuSnapshot
  after : CpuSnapshot
  cpuCores : JSVal
deriving DecidableEq, Repr

/-- The `metrics.memoryUsage.diff` object of the report. -/
structure MemDiff where
  rss : JSVal
  heapTotal : JSVal
  heapUsed : JSVal
  external : JSVal
deriving DecidableEq, Repr

/-- The `metrics.memoryUsage` object of the report. -/
structure MemReport where
  before : MemSnapshot
  after : MemSnapshot
  diff : MemDiff
deriving DecidableEq, Repr

/-- The `metrics.cpuUsage` object of the report. -/
structure CpuReport where
  before : CpuSnapshot
  after : CpuSnapshot
  diffUser : JSVal
  diffSystem : JSVal
deriving DecidableEq, Repr

/-- The `metrics` section of the report. -/
structure Metrics where
  executionTimes : List ℚ
  averageExecutionTime : JSVal
  memoryUsage : MemReport
  cpuUsage : CpuReport
deriving DecidableEq, Repr

/-- The `statistics` section of the report. -/
structure Statistics where
  mean : JSVal
  median : JSVal
  stdDev : JSReal
  p95 : JSVal
  p99 : JSVal

/-- The `environment` section of the report. -/
structure Environment where
  os : String
  container : Bool
  cpuCores : JSVal
  memory : JSVal
deriving DecidableEq, Repr

/-- The standardized benchmark report object returned by
`formatMetrics`. -/
structure Report where
  runtime : String
  version : String
  experiment : String
  timestamp : String
  environment : Environment
  metrics : Metrics
  statistics : Statistics

/-- Shallow embedding of `formatMetrics` from
`benchmark-suites/metrics-interface.js`.  The ambient reads
(`process.platform`, `process.env.CONTAINER`,
`new Date().toISOString()`) are the explicit parameters `platform`,
`containerEnv`, `now`. -/
noncomputable def formatMetrics (platform : String) (containerEnv : Option String)
    (now : String) (runtime version experiment : String)
    (executionTimes : List ℚ) (memoryUsage : MemPair) (cpuUsage : CpuPair) :
    Report :=
  let mean := jsDivLen (.num (executionTimes.foldl (· + ·) 0)) executionTimes.length
  let sorted := executionTimes.insertionSort (· ≤ ·)
  let median := jsIndex sorted (jsFloorNat ((sorted.length : ℚ) / 2))
  let stdDev := jsSqrt (jsDivLen
    (executionTimes.foldl (fun sum val => jsAdd sum (jsSq (jsSub (.num val) mean))) (.num 0))
    executionTimes.length)
  let p95 := jsIndex sorted (jsFloorNat ((sorted.length : ℚ) * 0.95))
  let p99 := jsIndex sorted (jsFloorNat ((sorted.length : ℚ) * 0.99))
  { runtime := runtime
    version := version
    experiment := experiment
    timestamp := now
    environment :=
      { os := platform
        container := containerEnv == some "true"
        cpuCores := jsOr cpuUsage.cpuCores (.str "unknown")
        memory := jsOr memoryUsage.before.totalMemory (.str "unknown") }
    metrics :=
      { executionTimes := executionTimes
        averageExecutionTime := mean
        memoryUsage :=
          { before := memoryUsage.before
            after := memoryUsage.after
            diff :=
              { rss := jsSub memoryUsage.after.rss memoryUsage.before.rss
                heapTotal := jsSub memoryUsage.after.heapTotal memoryUsage.before.heapTotal
                heapUsed := jsSub memoryUsage.after.heapUsed memoryUsage.before.heapUsed
                external := jsSub memoryUsage.after.external memoryUsage.before.external } }
        cpuUsage :=
          { before := cpuUsage.before
            after := cpuUsage.after
            diffUser := jsSub cpuUsage.after.user cpuUsage.before.user
            diffSystem := jsSub cpuUsage.after.system cpuUsage.before.system } }
    statistics :=
      { mean := mean
        median := median
        stdDev := stdDev
        p95 := p95
        p99 := p99 } }

/-- Outcome the file system gives to a single attempt to create the
destination directory and write the report. -/
inductive WriteOutcome where
  | ok
  | fail (msg : String)
deriving DecidableEq, Repr

/-- Shallow embedding of `saveResults` from
`benchmark-suites/metrics-interface.js`: creates the directory if
missing, writes the serialized report, logs on success.  There is no
`try`/`catch`, so a file-system error propagates to the caller
(`Except.error`); on success the full report is the written content. -/
def saveResults (results : Report) (outputPath : String) (fs : WriteOutcome) :
    Except String (Report × List String) :=
  match fs with
  | .ok => .ok (results, ["Результаты сохранены в " ++ outputPath])
  | .fail msg => .error msg

namespace NodeUtils

/-- The persistence tail of `benchmark` in
`benchmark-suites/node/utils/metrics.mjs` (lines 164–169): if an
`outputPath` was supplied, `await saveResults(metrics, outputPath)` runs
with no surrounding `try`/`catch`, and then `metrics` is returned.  An
error thrown by `saveResults` therefore propagates out of `benchmark`
(`Except.error`) and the report is not returned. -/
def benchmarkFinish (metrics : Report) (outputPath : Option String)
    (fs : WriteOutcome) : Except String Report :=
  match outputPath with
  | none => .ok metrics
  | some p => (saveResults metrics p fs).map (fun _ => metrics)

end NodeUtils

namespace BunUtils

/-- The persistence tail of `benchmark` in the Bun metrics utilities
(lines 174–187): the directory creation and write are wrapped in
`try`/`catch`; on failure the error is logged with `console.error` and
`metrics` is returned regardless.  The first component is the log
output. -/
def benchmarkFinish (metrics : Report) (outputPath : String)
    (fs : WriteOutcome) : List String × Report :=
  match fs with
  | .ok => (["Результаты сохранены в " ++ outputPath], metrics)
  | .fail msg => (["Ошибка при сохранении результатов: " ++ msg], metrics)

end BunUtils

/-- The arithmetic mean of a list of durations, as the spec words it. -/
def specMean (l : List ℚ) : ℚ := l.sum / l.length

/-- The population variance as the spec words it: the mean of the
squared deviations from the mean (divisor `N`, not `N - 1`). -/
def specVariance (l : List ℚ) : ℚ :=
  ((l.map fun x => (x - specMean l) ^ 2).sum) / l.length

/-- Concrete memory snapshot used to instantiate witnesses. -/
def sampleMemSnapA : MemSnapshot :=
  { rss := .num 1000, heapTotal := .num 500, heapUsed := .num 250,
    external := .num 50, totalMemory := .str "16051MB" }

/-- Concrete memory snapshot used to instantiate witnesses. -/
def sampleMemSnapB : MemSnapshot :=
  { rss := .num 1100, heapTotal := .num 520, heapUsed := .num 260,
    external := .num 55, totalMemory := .str "16051MB" }

/-- Concrete before/after memory pair used to instantiate witnesses. -/
def sampleMem : MemPair := { before := sampleMemSnapA, after := sampleMemSnapB }

/-- Concrete memory snapshot whose `rss`, `heapTotal` and `totalMemory`
fields carry the `'unknown'` sentinel, as the Deno collaborator
produces. -/
def unknownMemSnap : MemSnapshot :=
  { rss := .str "unknown", heapTotal := .str "unknown", heapUsed := .num 250,
    external := .num 50, totalMemory := .str "unknown" }

/-- Concrete before/after CPU pair used to instantiate witnesses. -/
def sampleCpu : CpuPair :=
  { before := { user := .num 200, system := .num 20 }
    after := { user := .num 260, system := .num 26 }
    cpuCores := .num 8 }

/-! Projection lemmas: the fields of the report produced by
`formatMetrics`, read off the structure literal. -/

lemma median_def (platform : String) (cEnv : Option String) (now rt ver ex : String)
    (l : List ℚ) (memU : MemPair) (cpuU : CpuPair) :
    (formatMetrics platform cEnv now rt ver ex l memU cpuU).statistics.median
      = jsIndex (l.insertionSort (· ≤ ·))
          (jsFloorNat (((l.insertionSort (· ≤ ·)).length : ℚ) / 2)) := rfl

lemma p95_def (platform : String) (cEnv : Option String) (now rt ver ex : String)
    (l : List ℚ) (memU : MemPair) (cpuU : CpuPair) :
    (formatMetrics platform cEnv now rt ver ex l memU cpuU).statistics.p95
      = jsIndex (l.insertionSort (· ≤ ·))
          (jsFloorNat (((l.insertionSort (· ≤ ·)).length : ℚ) * 0.95)) := rfl

lemma p99_def (platform : String) (cEnv : Option String) (now rt ver ex : String)
    (l : List ℚ) (memU : MemPair) (cpuU : CpuPair) :
    (formatMetrics platform cEnv now rt ver ex l memU cpuU).statistics.p99
      = jsIndex (l.insertionSort (· ≤ ·))
          (jsFloorNat (((l.insertionSort (· ≤ ·)).length : ℚ) * 0.99)) := rfl

lemma mean_def (platform : String) (cEnv : Option String) (now rt ver ex : String)
    (l : List ℚ) (memU : MemPair) (cpuU : CpuPair) :
    (formatMetrics platform cEnv now rt ver ex l memU cpuU).statistics.mean
      = jsDivLen (.num (l.foldl (· + ·) 0)) l.length := rfl

lemma averageExecutionTime_def (platform : String) (cEnv : Option String)
    (now rt ver ex : String) (l : List ℚ) (memU : MemPair) (cpuU : CpuPair) :
    (formatMetrics platform cEnv now rt ver ex l memU cpuU).metrics.averageExecutionTime
      = jsDivLen (.num (l.foldl (· + ·) 0)) l.length := rfl

lemma stdDev_def (platform : String) (cEnv : Option String) (now rt ver ex : String)
    (l : List ℚ) (memU : MemPair) (cpuU : CpuPair) :
    (formatMetrics platform cEnv now rt ver ex l memU cpuU).statistics.stdDev
      = jsSqrt (jsDivLen
          (l.foldl (fun sum val => jsAdd sum (jsSq (jsSub (.num val)
            (jsDivLen (.num (l.foldl (· + ·) 0)) l.length)))) (.num 0))
          l.length) := rfl

/-! Arithmetic helper lemmas. -/

/-- JS `reduce((a, b) => a + b, 0)` is the list sum. -/
lemma foldl_add_eq_sum (l : List ℚ) (a : ℚ) : l.foldl (· + ·) a = a + l.sum := by
  induction l generalizing a with
  | nil => simp
  | cons x xs ih => simp [ih, add_assoc]

/-- For a non-empty list the embedded mean is the rational arithmetic
mean. -/
lemma mean_eq_num (l : List ℚ) (h : l ≠ []) :
    jsDivLen (.num (l.foldl (· + ·) 0)) l.length = .num (specMean l) := by
  have hlen : l.length ≠ 0 := by simpa using h
  rw [foldl_add_eq_sum, zero_add]
  simp [jsDivLen, hlen, specMean]

/-- The accumulation loop of the standard-deviation radicand. -/
lemma stddev_foldl (l : List ℚ) (μ a : ℚ) :
    l.foldl (fun sum val => jsAdd sum (jsSq (jsSub (.num val) (.num μ)))) (.num a)
      = .num (a + (l.map fun x => (x - μ) ^ 2).sum) := by
  induction l generalizing a with
  | nil => simp
  | cons x xs ih =>
    simp only [List.foldl_cons, List.map_cons, List.sum_cons]
    have hstep : jsAdd (JSVal.num a) (jsSq (jsSub (JSVal.num x) (JSVal.num μ)))
        = JSVal.num (a + (x - μ) ^ 2) := rfl
    rw [hstep, ih]
    exact congrArg JSVal.num (by ring)

lemma listSum_nonneg (l : List ℚ) (h : ∀ x ∈ l, 0 ≤ x) : 0 ≤ l.sum := by
  induction l with
  | nil => simp
  | cons x xs ih =>
    have hx := h x (by simp)
    have hxs := ih fun y hy => h y (by simp [hy])
    simp only [List.sum_cons]
    linarith

lemma mem_le_listSum (l : List ℚ) (z : ℚ) (hz : z ∈ l) (h : ∀ x ∈ l, 0 ≤ x) :
    z ≤ l.sum := by
  induction l with
  | nil => simp at hz
  | cons x xs ih =>
    rcases List.mem_cons.mp hz with rfl | hz2
    · have := listSum_nonneg xs fun y hy => h y (by simp [hy])
      simp only [List.sum_cons]; linarith
    · have hx := h x (by simp)
      have := ih hz2 fun y hy => h y (by simp [hy])
      simp only [List.sum_cons]; linarith

/-- Every non-empty list of rationals has a least and a greatest
element. -/
lemma exists_min_max (l : List ℚ) (h : l ≠ []) :
    ∃ mn ∈ l, ∃ mx ∈ l, ∀ y ∈ l, mn ≤ y ∧ y ≤ mx := by
  induction l with
  | nil => exact absurd rfl h
  | cons x xs ih =>
    rcases eq_or_ne xs [] with hxs | hxs
    · subst hxs
      exact ⟨x, by simp, x, by simp, by simp⟩
    · obtain ⟨mn, hmn, mx, hmx, hb⟩ := ih hxs
      refine ⟨min x mn, ?_, max x mx, ?_, ?_⟩
      · rcases le_total x mn with h1 | h1
        · simp [min_eq_left h1]
        · simp [min_eq_right h1, hmn]
      · rcases le_total x mx with h1 | h1
        · simp [max_eq_right h1, hmx]
        · simp [max_eq_left h1]
      · intro y hy
        rcases List.mem_cons.mp hy with rfl | hy2
        · exact ⟨min_le_left _ _, le_max_left _ _⟩
        · exact ⟨le_trans (min_le_right _ _) (hb y hy2).1,
            le_trans (hb y hy2).2 (le_max_right _ _)⟩

/-- The arithmetic mean of a non-empty list lies between any lower and
upper bound of its elements. -/
lemma specMean_bounds (l : List ℚ) (h : l ≠ []) (mn mx : ℚ)
    (hb : ∀ y ∈ l, mn ≤ y ∧ y ≤ mx) : mn ≤ specMean l ∧ specMean l ≤ mx := by
  have hlen : l.length ≠ 0 := by simpa using h
  have hN : (0 : ℚ) < l.length := by exact_mod_cast Nat.pos_of_ne_zero hlen
  have hLo : (l.length : ℚ) * mn ≤ l.sum := by
    have := List.card_nsmul_le_sum l mn fun y hy => (hb y hy).1
    simpa [nsmul_eq_mul] using this
  have hHi : l.sum ≤ (l.length : ℚ) * mx := by
    have := List.sum_le_card_nsmul l mx fun y hy => (hb y hy).2
    simpa [nsmul_eq_mul] using this
  constructor
  · rw [specMean, le_div_iff₀ hN]
    linarith
  · rw [specMean, div_le_iff₀ hN]
    linarith

lemma specVariance_nonneg (l : List ℚ) : 0 ≤ specVariance l := by
  apply div_nonneg
  · exact listSum_nonneg _ fun x hx => by
      obtain ⟨y, _, rfl⟩ := List.mem_map.mp hx
      positivity
  · positivity

/-- If all elements are equal the population variance vanishes. -/
lemma specVariance_all_eq (l : List ℚ) (h : ∀ x ∈ l, ∀ y ∈ l, x = y) :
    specVariance l = 0 := by
  have hz : ∀ t ∈ l.map fun x => (x - specMean l) ^ 2, t = 0 ∨ True := fun _ _ => Or.inr trivial
  rcases eq_or_ne l [] with rfl | hne
  · simp [specVariance]
  · obtain ⟨c, hc⟩ := List.exists_mem_of_ne_nil l hne
    have hall : ∀ x ∈ l, x = c := fun x hx => h x hx c hc
    have hmean : specMean l = c := by
      have hsum : l.sum = (l.length : ℚ) * c := by
        have h1 := List.sum_le_card_nsmul l c fun y hy => le_of_eq (hall y hy)
        have h2 := List.card_nsmul_le_sum l c fun y hy => ge_of_eq (hall y hy)
        have := le_antisymm (by simpa [nsmul_eq_mul] using h1)
          (by simpa [nsmul_eq_mul] using h2)
        linarith [this]
      have hlen : l.length ≠ 0 := by simpa using hne
      have hN : (0 : ℚ) < l.length := by exact_mod_cast Nat.pos_of_ne_zero hlen
      rw [specMean, hsum, mul_comm, mul_div_assoc, div_self (ne_of_gt hN), mul_one]
    have : ∀ t ∈ l.map fun x => (x - specMean l) ^ 2, t = 0 := by
      intro t ht
      obtain ⟨y, hy, rfl⟩ := List.mem_map.mp ht
      rw [hall y hy, hmean, sub_self]
      ring
    rw [specVariance, List.sum_eq_zero this, zero_div]

/-- If two elements differ the population variance is strictly
positive. -/
lemma specVariance_pos (l : List ℚ) (hne : l ≠ [])
    (h : ∃ x ∈ l, ∃ y ∈ l, x ≠ y) : 0 < specVariance l := by
  obtain ⟨x, hx, y, hy, hxy⟩ := h
  have hlen : l.length ≠ 0 := by simpa using hne
  have hN : (0 : ℚ) < l.length := by exact_mod_cast Nat.pos_of_ne_zero hlen
  -- one of the two distinct elements differs from the mean
  have hz : ∃ z ∈ l, z ≠ specMean l := by
    by_cases hxm : x = specMean l
    · exact ⟨y, hy, fun hym => hxy (hxm.trans hym.symm)⟩
    · exact ⟨x, hx, hxm⟩
  obtain ⟨z, hz, hzm⟩ := hz
  have hterm : (0 : ℚ) < (z - specMean l) ^ 2 := by
    have : z - specMean l ≠ 0 := sub_ne_zero.mpr hzm
    positivity
  have hmem : (z - specMean l) ^ 2 ∈ l.map fun x => (x - specMean l) ^ 2 :=
    List.mem_map.mpr ⟨z, hz, rfl⟩
  have hsum : (z - specMean l) ^ 2 ≤ (l.map fun x => (x - specMean l) ^ 2).sum :=
    mem_le_listSum _ _ hmem fun t ht => by
      obtain ⟨w, _, rfl⟩ := List.mem_map.mp ht
      positivity
  exact div_pos (lt_of_lt_of_le hterm hsum) hN

/-! Index computations: `Math.floor(N / 2)`, `Math.floor(N * 0.95)`,
`Math.floor(N * 0.99)` as natural-number divisions. -/

lemma jsFloorNat_half (n : ℕ) : jsFloorNat ((n : ℚ) / 2) = n / 2 := by
  rw [jsFloorNat, show ((2 : ℚ)) = ((2 : ℕ) : ℚ) by norm_num,
    Nat.floor_div_nat, Nat.floor_natCast]

lemma jsFloorNat_p95 (n : ℕ) : jsFloorNat ((n : ℚ) * 0.95) = 19 * n / 20 := by
  have h : (n : ℚ) * 0.95 = ((19 * n : ℕ) : ℚ) / ((20 : ℕ) : ℚ) := by
    push_cast
    rw [show (0.95 : ℚ) = 19 / 20 by norm_num]
    ring
  rw [jsFloorNat, h, Nat.floor_div_nat, Nat.floor_natCast]

lemma jsFloorNat_p99 (n : ℕ) : jsFloorNat ((n : ℚ) * 0.99) = 99 * n / 100 := by
  have h : (n : ℚ) * 0.99 = ((99 * n : ℕ) : ℚ) / ((100 : ℕ) : ℚ) := by
    push_cast
    rw [show (0.99 : ℚ) = 99 / 100 by norm_num]
    ring
  rw [jsFloorNat, h, Nat.floor_div_nat, Nat.floor_natCast]

lemma medianIdx_le_p95Idx (n : ℕ) : n / 2 ≤ 19 * n / 20 := by omega

lemma p95Idx_le_p99Idx (n : ℕ) : 19 * n / 20 ≤ 99 * n / 100 := by omega

lemma p95Idx_lt (n : ℕ) (h : n ≠ 0) : 19 * n / 20 < n := by omega

lemma p99Idx_lt (n : ℕ) (h : n ≠ 0) : 99 * n / 100 < n := by omega

/-- In-range JS indexing returns the element. -/
lemma jsIndex_eq_get (l : List ℚ) (i : ℕ) (h : i < l.length) :
    jsIndex l i = .num (l.get ⟨i, h⟩) := by
  simp [jsIndex, List.getElem?_eq_getElem h]

lemma jsIndex_nil (i : ℕ) : jsIndex [] i = .undefined := by
  simp [jsIndex]

/-- The sorted copy used by `formatMetrics`, its defining properties. -/
lemma sortedCopy_sorted (l : List ℚ) : List.Sorted (· ≤ ·) (l.insertionSort (· ≤ ·)) :=
  List.sorted_insertionSort _ l

lemma sortedCopy_perm (l : List ℚ) : (l.insertionSort (· ≤ ·)).Perm l :=
  List.perm_insertionSort _ l

lemma sortedCopy_length (l : List ℚ) : (l.insertionSort (· ≤ ·)).length = l.length :=
  (List.perm_insertionSort _ l).length_eq

/-- Any ascending-sorted permutation of `l` is the sorted copy that
`formatMetrics` computes. -/
lemma sortedCopy_unique (l s : List ℚ) (hs : List.Sorted (· ≤ ·) s) (hp : s.Perm l) :
    s = l.insertionSort (· ≤ ·) :=
  List.eq_of_perm_of_sorted (hp.trans (sortedCopy_perm l).symm) hs (sortedCopy_sorted l)

/-- Subtracting snapshot fields of which at least one is the string
`'unknown'` always yields `NaN` (JS coerces the string with `ToNumber`),
never a number. -/
lemma jsSub_unknown (a b : JSVal) (h : a = .str "unknown" ∨ b = .str "unknown") :
    jsSub a b = .nan ∧ ∀ q : ℚ, jsSub a b ≠ .num q := by
  have hnan : jsSub a b = .nan := by
    rcases h with rfl | rfl
    · cases b <;> rfl
    · cases a <;> rfl
  refine ⟨hnan, fun q hq => ?_⟩
  rw [hnan] at hq
  cases hq

/-- C1: `formatMetrics` applied to an empty `executionTimes` array does
NOT fail: it silently returns a report whose `statistics.mean` is `NaN`
(`0 / 0`), whose `median`, `p95` and `p99` are `undefined`
(out-of-range indexing of the empty sorted array) and whose `stdDev` is
`NaN` — contradicting the specified `InvalidInput` failure.  This
evaluates the code at the failing input. -/
theorem formatMetrics_empty_returns_nan_report (platform : String)
    (cEnv : Option String) (now rt ver ex : String) (memU : MemPair) (cpuU : CpuPair) :
    (formatMetrics platform cEnv now rt ver ex [] memU cpuU).statistics.mean = JSVal.nan
    ∧ (formatMetrics platform cEnv now rt ver ex [] memU cpuU).statistics.median = JSVal.undefined
    ∧ (formatMetrics platform cEnv now rt ver ex [] memU cpuU).statistics.p95 = JSVal.undefined
    ∧ (formatMetrics platform cEnv now rt ver ex [] memU cpuU).statistics.p99 = JSVal.undefined
    ∧ (formatMetrics platform cEnv now rt ver ex [] memU cpuU).statistics.stdDev = JSReal.nan := by
  refine ⟨rfl, ?_, ?_, ?_, rfl⟩
  · rw [median_def]
    exact jsIndex_nil _
  · rw [p95_def]
    exact jsIndex_nil _
  · rw [p99_def]
    exact jsIndex_nil _

/-- C2 counterexample: with `before.rss = 'unknown'` and a numeric
`after.rss`, the report's `metrics.memoryUsage.diff.rss` is `NaN`, not
the string `'unknown'` that the claim promises. -/
theorem memDiff_unknown_counterexample :
    (formatMetrics "linux" none "t0" "deno" "1.40" "exp" [100]
        { before := unknownMemSnap, after := sampleMemSnapB } sampleCpu).metrics.memoryUsage.diff.rss
      = JSVal.nan
    ∧ (formatMetrics "linux" none "t0" "deno" "1.40" "exp" [100]
        { before := unknownMemSnap, after := sampleMemSnapB } sampleCpu).metrics.memoryUsage.diff.rss
      ≠ JSVal.str "unknown" := by
  have h1 : (formatMetrics "linux" none "t0" "deno" "1.40" "exp" [100]
      { before := unknownMemSnap, after := sampleMemSnapB } sampleCpu).metrics.memoryUsage.diff.rss
      = JSVal.nan := rfl
  refine ⟨h1, ?_⟩
  rw [h1]
  decide

/-- C2 (amended): whenever a memory or CPU snapshot field is the string
`'unknown'` on either side (or both), the corresponding diff field of
the report is `NaN` — never a numeric value and in particular never
zero (but also not the string `'unknown'`). -/
theorem memDiff_unknown_propagates_nan (platform : String) (cEnv : Option String)
    (now rt ver ex : String) (l : List ℚ) (memU : MemPair) (cpuU : CpuPair) :
    (memU.before.rss = .str "unknown" ∨ memU.after.rss = .str "unknown" →
      (formatMetrics platform cEnv now rt ver ex l memU cpuU).metrics.memoryUsage.diff.rss
          = JSVal.nan
        ∧ ∀ q : ℚ, (formatMetrics platform cEnv now rt ver ex l memU cpuU).metrics.memoryUsage.diff.rss
          ≠ JSVal.num q)
    ∧ (memU.before.heapTotal = .str "unknown" ∨ memU.after.heapTotal = .str "unknown" →
      (formatMetrics platform cEnv now rt ver ex l memU cpuU).metrics.memoryUsage.diff.heapTotal
          = JSVal.nan
        ∧ ∀ q : ℚ, (formatMetrics platform cEnv now rt ver ex l memU cpuU).metrics.memoryUsage.diff.heapTotal
          ≠ JSVal.num q)
    ∧ (memU.before.heapUsed = .str "unknown" ∨ memU.after.heapUsed = .str "unknown" →
      (formatMetrics platform cEnv now rt ver ex l memU cpuU).metrics.memoryUsage.diff.heapUsed
          = JSVal.nan
        ∧ ∀ q : ℚ, (formatMetrics platform cEnv now rt ver ex l memU cpuU).metrics.memoryUsage.diff.heapUsed
          ≠ JSVal.num q)
    ∧ (memU.before.external = .str "unknown" ∨ memU.after.external = .str "unknown" →
      (formatMetrics platform cEnv now rt ver ex l memU cpuU).metrics.memoryUsage.diff.external
          = JSVal.nan
        ∧ ∀ q : ℚ, (formatMetrics platform cEnv now rt ver ex l memU cpuU).metrics.memoryUsage.diff.external
          ≠ JSVal.num q)
    ∧ (cpuU.before.user = .str "unknown" ∨ cpuU.after.user = .str "unknown" →
      (formatMetrics platform cEnv now rt ver ex l memU cpuU).metrics.cpuUsage.diffUser
          = JSVal.nan
        ∧ ∀ q : ℚ, (formatMetrics platform cEnv now rt ver ex l memU cpuU).metrics.cpuUsage.diffUser
          ≠ JSVal.num q)
    ∧ (cpuU.before.system = .str "unknown" ∨ cpuU.after.system = .str "unknown" →
      (formatMetrics platform cEnv now rt ver ex l memU cpuU).metrics.cpuUsage.diffSystem
          = JSVal.nan
        ∧ ∀ q : ℚ, (formatMetrics platform cEnv now rt ver ex l memU cpuU).metrics.cpuUsage.diffSystem
          ≠ JSVal.num q) :=
  ⟨fun h => jsSub_unknown _ _ h.symm, fun h => jsSub_unknown _ _ h.symm,
    fun h => jsSub_unknown _ _ h.symm, fun h => jsSub_unknown _ _ h.symm,
    fun h => jsSub_unknown _ _ h.symm, fun h => jsSub_unknown _ _ h.symm⟩

/-- C2 witness: concrete instantiation with an `'unknown'`
`before.heapTotal`. -/
theorem memDiff_unknown_propagates_nan_witness :
    (formatMetrics "linux" none "t1" "deno" "1.40" "exp" [100]
        { before := unknownMemSnap, after := sampleMemSnapB } sampleCpu).metrics.memoryUsage.diff.heapTotal
      = JSVal.nan
    ∧ ∀ q : ℚ, (formatMetrics "linux" none "t1" "deno" "1.40" "exp" [100]
        { before := unknownMemSnap, after := sampleMemSnapB } sampleCpu).metrics.memoryUsage.diff.heapTotal
      ≠ JSVal.num q :=
  (memDiff_unknown_propagates_nan "linux" none "t1" "deno" "1.40" "exp" [100]
    { before := unknownMemSnap, after := sampleMemSnapB } sampleCpu).2.1 (Or.inl rfl)

/-- C7: the report's `metrics.executionTimes` is the input `durations`
itself, in original execution order; the ascending sort is performed
only on a copy, which the statistics index into — in this pure
embedding lists are immutable values, so the input cannot be mutated,
and the theorem records that the unsorted original (not the sorted
copy) is what the report stores. -/
theorem metrics_executionTimes_preserved (platform : String) (cEnv : Option String)
    (now rt ver ex : String) (l : List ℚ) (memU : MemPair) (cpuU : CpuPair) :
    (formatMetrics platform cEnv now rt ver ex l memU cpuU).metrics.executionTimes = l
    ∧ (formatMetrics platform cEnv now rt ver ex l memU cpuU).statistics.median
      = jsIndex (l.insertionSort (· ≤ ·))
          (jsFloorNat (((l.insertionSort (· ≤ ·)).length : ℚ) / 2)) :=
  ⟨rfl, rfl⟩

/-- C8: two `formatMetrics` calls with identical inputs and different
wall-clock timestamps agree on every report field except `timestamp`
(in particular on the whole `metrics` and `statistics` sections). -/
theorem formatMetrics_deterministic (platform : String) (cEnv : Option String)
    (t1 t2 : String) (rt ver ex : String) (l : List ℚ) (memU : MemPair) (cpuU : CpuPair) :
    (formatMetrics platform cEnv t1 rt ver ex l memU cpuU).metrics
        = (formatMetrics platform cEnv t2 rt ver ex l memU cpuU).metrics
    ∧ (formatMetrics platform cEnv t1 rt ver ex l memU cpuU).statistics
        = (formatMetrics platform cEnv t2 rt ver ex l memU cpuU).statistics
    ∧ (formatMetrics platform cEnv t1 rt ver ex l memU cpuU).runtime
        = (formatMetrics platform cEnv t2 rt ver ex l memU cpuU).runtime
    ∧ (formatMetrics platform cEnv t1 rt ver ex l memU cpuU).version
        = (formatMetrics platform cEnv t2 rt ver ex l memU cpuU).version
    ∧ (formatMetrics platform cEnv t1 rt ver ex l memU cpuU).experiment
        = (formatMetrics platform cEnv t2 rt ver ex l memU cpuU).experiment
    ∧ (formatMetrics platform cEnv t1 rt ver ex l memU cpuU).environment
        = (formatMetrics platform cEnv t2 rt ver ex l memU cpuU).environment
    ∧ (formatMetrics platform cEnv t1 rt ver ex l memU cpuU).timestamp = t1
    ∧ (formatMetrics platform cEnv t2 rt ver ex l memU cpuU).timestamp = t2 :=
  ⟨rfl, rfl, rfl, rfl, rfl, rfl, rfl, rfl⟩

/-- C9 counterexample: in the Node variant a failing write is NOT
caught — `benchmark` propagates the error and does not return its
report to the in-process caller. -/
theorem nodeBenchmark_write_failure_counterexample :
    NodeUtils.benchmarkFinish
        (formatMetrics "linux" none "t0" "node" "v20" "exp" [100] sampleMem sampleCpu)
        (some "/app/results/node_exp.json") (.fail "EACCES: permission denied")
      = Except.error "EACCES: permission denied"
    ∧ ∀ rep : Report, NodeUtils.benchmarkFinish
        (formatMetrics "linux" none "t0" "node" "v20" "exp" [100] sampleMem sampleCpu)
        (some "/app/results/node_exp.json") (.fail "EACCES: permission denied")
      ≠ Except.ok rep := by
  have h1 : NodeUtils.benchmarkFinish
      (formatMetrics "linux" none "t0" "node" "v20" "exp" [100] sampleMem sampleCpu)
      (some "/app/results/node_exp.json") (.fail "EACCES: permission denied")
      = Except.error "EACCES: permission denied" := rfl
  refine ⟨h1, fun rep hok => ?_⟩
  rw [h1] at hok
  cases hok

/-- C9 (amended): the Bun variant logs the error and still returns the
report (never swallowed, never aborts); the Node variant returns the
report when no path is given or the write succeeds, but a failing write
propagates as an error. -/
theorem benchmark_write_failure_behavior :
    (∀ (r : Report) (p m : String),
        BunUtils.benchmarkFinish r p (.fail m)
          = (["Ошибка при сохранении результатов: " ++ m], r))
    ∧ (∀ (r : Report) (p : String) (fs : WriteOutcome),
        (BunUtils.benchmarkFinish r p fs).2 = r)
    ∧ (∀ (r : Report) (fs : WriteOutcome), NodeUtils.benchmarkFinish r none fs = .ok r)
    ∧ (∀ (r : Report) (p : String), NodeUtils.benchmarkFinish r (some p) .ok = .ok r)
    ∧ (∀ (r : Report) (p m : String),
        NodeUtils.benchmarkFinish r (some p) (.fail m) = .error m) := by
  refine ⟨fun r p m => rfl, fun r p fs => ?_, fun r fs => rfl, fun r p => rfl,
    fun r p m => rfl⟩
  cases fs <;> rfl

/-- C3: for every non-empty `durations` of length `N`,
`statistics.median` is the element at index `⌊N/2⌋` of the
ascending-sorted copy (the upper median, not the averaged midpoint); in
particular for `N = 1` it is the single value and for `N = 2` the
larger of the two. -/
theorem statistics_median_upper (platform : String) (cEnv : Option String)
    (now rt ver ex : String) (memU : MemPair) (cpuU : CpuPair)
    (l s : List ℚ) (hs : List.Sorted (· ≤ ·) s) (hp : s.Perm l) (hne : l ≠ []) :
    (formatMetrics platform cEnv now rt ver ex l memU cpuU).statistics.median
        = jsIndex s (l.length / 2)
    ∧ (∀ a : ℚ, l = [a] →
        (formatMetrics platform cEnv now rt ver ex l memU cpuU).statistics.median
          = JSVal.num a)
    ∧ (∀ a b : ℚ, l = [a, b] →
        (formatMetrics platform cEnv now rt ver ex l memU cpuU).statistics.median
          = JSVal.num (max a b)) := by
  have hsort := sortedCopy_unique l s hs hp
  have hmain : (formatMetrics platform cEnv now rt ver ex l memU cpuU).statistics.median
      = jsIndex s (l.length / 2) := by
    rw [median_def, sortedCopy_length, jsFloorNat_half, ← hsort]
  refine ⟨hmain, ?_, ?_⟩
  · rintro a rfl
    have hs2 : s = [a] := List.eq_of_perm_of_sorted hp hs (List.sorted_singleton a)
    rw [hmain, hs2]
    simp [jsIndex]
  · rintro a b rfl
    rcases le_total a b with h1 | h1
    · have hs2 : s = [a, b] :=
        List.eq_of_perm_of_sorted hp hs (by simp [List.sorted_cons, h1])
      rw [hmain, hs2, max_eq_right h1]
      simp [jsIndex]
    · have hperm : s.Perm [b, a] := hp.trans (List.Perm.swap b a [])
      have hs2 : s = [b, a] :=
        List.eq_of_perm_of_sorted hperm hs (by simp [List.sorted_cons, h1])
      rw [hmain, hs2, max_eq_left h1]
      simp [jsIndex]

/-- C3 witness: `durations = [3, 1, 2]`, sorted copy `[1, 2, 3]`,
median `2` (index `⌊3/2⌋ = 1`). -/
theorem statistics_median_upper_witness :
    (formatMetrics "linux" none "t2" "node" "v20" "exp" [3, 1, 2] sampleMem sampleCpu).statistics.median
      = JSVal.num 2 :=
  ((statistics_median_upper "linux" none "t2" "node" "v20" "exp" sampleMem sampleCpu
      [3, 1, 2] [1, 2, 3] (by decide) (by decide) (by decide)).1).trans (by rfl)

/-- C4: for every non-empty `durations` of length `N`, the p95/p99
indices `⌊N·0.95⌋` and `⌊N·0.99⌋` are strictly below `N` (so the clamp
to `N - 1` is the identity and never needed), `statistics.p95`/`p99`
are the sorted-copy elements at the (clamped) indices, and both are
elements of `durations` lying within its min and max. -/
theorem statistics_p95_p99_defined (platform : String) (cEnv : Option String)
    (now rt ver ex : String) (memU : MemPair) (cpuU : CpuPair)
    (l s : List ℚ) (hs : List.Sorted (· ≤ ·) s) (hp : s.Perm l) (hne : l ≠ []) :
    jsFloorNat ((l.length : ℚ) * 0.95) < l.length
    ∧ jsFloorNat ((l.length : ℚ) * 0.99) < l.length
    ∧ (formatMetrics platform cEnv now rt ver ex l memU cpuU).statistics.p95
        = jsIndex s (min (jsFloorNat ((l.length : ℚ) * 0.95)) (l.length - 1))
    ∧ (formatMetrics platform cEnv now rt ver ex l memU cpuU).statistics.p99
        = jsIndex s (min (jsFloorNat ((l.length : ℚ) * 0.99)) (l.length - 1))
    ∧ ∃ x95 x99 mn mx : ℚ,
        (formatMetrics platform cEnv now rt ver ex l memU cpuU).statistics.p95 = JSVal.num x95
        ∧ (formatMetrics platform cEnv now rt ver ex l memU cpuU).statistics.p99 = JSVal.num x99
        ∧ x95 ∈ l ∧ x99 ∈ l ∧ mn ∈ l ∧ mx ∈ l
        ∧ (∀ y ∈ l, mn ≤ y ∧ y ≤ mx)
        ∧ mn ≤ x95 ∧ x95 ≤ mx ∧ mn ≤ x99 ∧ x99 ≤ mx := by
  have hsort := sortedCopy_unique l s hs hp
  have hlen0 : l.length ≠ 0 := by simpa using hne
  have h95 : jsFloorNat ((l.length : ℚ) * 0.95) = 19 * l.length / 20 := jsFloorNat_p95 _
  have h99 : jsFloorNat ((l.length : ℚ) * 0.99) = 99 * l.length / 100 := jsFloorNat_p99 _
  have h95lt : jsFloorNat ((l.length : ℚ) * 0.95) < l.length := by
    rw [h95]
    exact p95Idx_lt _ hlen0
  have h99lt : jsFloorNat ((l.length : ℚ) * 0.99) < l.length := by
    rw [h99]
    exact p99Idx_lt _ hlen0
  have hmin95 : min (jsFloorNat ((l.length : ℚ) * 0.95)) (l.length - 1)
      = jsFloorNat ((l.length : ℚ) * 0.95) := min_eq_left (by omega)
  have hmin99 : min (jsFloorNat ((l.length : ℚ) * 0.99)) (l.length - 1)
      = jsFloorNat ((l.length : ℚ) * 0.99) := min_eq_left (by omega)
  have hg95 : 19 * l.length / 20 < (l.insertionSort (· ≤ ·)).length := by
    rw [sortedCopy_length]
    exact p95Idx_lt _ hlen0
  have hg99 : 99 * l.length / 100 < (l.insertionSort (· ≤ ·)).length := by
    rw [sortedCopy_length]
    exact p99Idx_lt _ hlen0
  have hidx95 : jsFloorNat (((l.insertionSort (· ≤ ·)).length : ℚ) * 0.95)
      = jsFloorNat ((l.length : ℚ) * 0.95) := by rw [sortedCopy_length]
  have hidx99 : jsFloorNat (((l.insertionSort (· ≤ ·)).length : ℚ) * 0.99)
      = jsFloorNat ((l.length : ℚ) * 0.99) := by rw [sortedCopy_length]
  have he95 : (formatMetrics platform cEnv now rt ver ex l memU cpuU).statistics.p95
      = JSVal.num ((l.insertionSort (· ≤ ·)).get ⟨19 * l.length / 20, hg95⟩) := by
    rw [p95_def, hidx95, h95, jsIndex_eq_get _ _ hg95]
  have he99 : (formatMetrics platform cEnv now rt ver ex l memU cpuU).statistics.p99
      = JSVal.num ((l.insertionSort (· ≤ ·)).get ⟨99 * l.length / 100, hg99⟩) := by
    rw [p99_def, hidx99, h99, jsIndex_eq_get _ _ hg99]
  have hm95 : (l.insertionSort (· ≤ ·)).get ⟨19 * l.length / 20, hg95⟩ ∈ l :=
    (sortedCopy_perm l).mem_iff.mp (List.get_mem _ _ _)
  have hm99 : (l.insertionSort (· ≤ ·)).get ⟨99 * l.length / 100, hg99⟩ ∈ l :=
    (sortedCopy_perm l).mem_iff.mp (List.get_mem _ _ _)
  obtain ⟨mn, hmn, mx, hmx, hb⟩ := exists_min_max l hne
  refine ⟨h95lt, h99lt, ?_, ?_, _, _, mn, mx, he95, he99, hm95, hm99, hmn, hmx, hb,
    (hb _ hm95).1, (hb _ hm95).2, (hb _ hm99).1, (hb _ hm99).2⟩
  · rw [p95_def, hidx95, hmin95, ← hsort]
  · rw [p99_def, hidx99, hmin99, ← hsort]

/-- C4 witness: `durations = [10]` — index `⌊1·0.95⌋ = 0`, p95 is the
single element. -/
theorem statistics_p95_p99_defined_witness :
    (formatMetrics "linux" none "t3" "node" "v20" "exp" [10] sampleMem sampleCpu).statistics.p95
      = JSVal.num 10 :=
  ((statistics_p95_p99_defined "linux" none "t3" "node" "v20" "exp" sampleMem sampleCpu
      [10] [10] (by decide) (by decide) (by decide)).2.2.1).trans
    (by rw [jsFloorNat_p95]; rfl)

/-- C5: `statistics.mean` and `metrics.averageExecutionTime` are the
same value (the same expression feeds both fields), equal to the
arithmetic mean of `durations`, which lies within the minimum and
maximum of `durations`. -/
theorem statistics_mean_invariant (platform : String) (cEnv : Option String)
    (now rt ver ex : String) (memU : MemPair) (cpuU : CpuPair)
    (l : List ℚ) (hne : l ≠ []) :
    (formatMetrics platform cEnv now rt ver ex l memU cpuU).statistics.mean
        = (formatMetrics platform cEnv now rt ver ex l memU cpuU).metrics.averageExecutionTime
    ∧ (formatMetrics platform cEnv now rt ver ex l memU cpuU).statistics.mean
        = JSVal.num (specMean l)
    ∧ ∃ mn ∈ l, ∃ mx ∈ l, (∀ y ∈ l, mn ≤ y ∧ y ≤ mx)
        ∧ mn ≤ specMean l ∧ specMean l ≤ mx := by
  refine ⟨rfl, ?_, ?_⟩
  · rw [mean_def]
    exact mean_eq_num l hne
  · obtain ⟨mn, hmn, mx, hmx, hb⟩ := exists_min_max l hne
    obtain ⟨h1, h2⟩ := specMean_bounds l hne mn mx hb
    exact ⟨mn, hmn, mx, hmx, hb, h1, h2⟩

/-- C5 witness: `durations = [100, 200, 300, 400, 500]`, mean `300`. -/
theorem statistics_mean_invariant_witness :
    (formatMetrics "linux" none "t4" "node" "v20" "exp" [100, 200, 300, 400, 500]
        sampleMem sampleCpu).statistics.mean = JSVal.num 300 :=
  ((statistics_mean_invariant "linux" none "t4" "node" "v20" "exp" sampleMem sampleCpu
      [100, 200, 300, 400, 500] (by decide)).2.1).trans (by norm_num [specMean])

/-- C6: `statistics.stdDev` is the population standard deviation
(square root of the mean of squared deviations, divisor `N`); it is `0`
when all durations are identical and strictly positive otherwise. -/
theorem statistics_stdDev_population (platform : String) (cEnv : Option String)
    (now rt ver ex : String) (memU : MemPair) (cpuU : CpuPair)
    (l : List ℚ) (hne : l ≠ []) :
    (formatMetrics platform cEnv now rt ver ex l memU cpuU).statistics.stdDev
        = JSReal.num (Real.sqrt (specVariance l : ℝ))
    ∧ ((∀ x ∈ l, ∀ y ∈ l, x = y) →
        (formatMetrics platform cEnv now rt ver ex l memU cpuU).statistics.stdDev
          = JSReal.num 0)
    ∧ ((∃ x ∈ l, ∃ y ∈ l, x ≠ y) →
        ∃ v : ℝ, (formatMetrics platform cEnv now rt ver ex l memU cpuU).statistics.stdDev
          = JSReal.num v ∧ 0 < v) := by
  have hlen0 : l.length ≠ 0 := by simpa using hne
  have hrad : (formatMetrics platform cEnv now rt ver ex l memU cpuU).statistics.stdDev
      = jsSqrt (JSVal.num (specVariance l)) := by
    rw [stdDev_def, mean_eq_num l hne, stddev_foldl, zero_add]
    congr 1
    simp [jsDivLen, hlen0, specVariance]
  have hmain : (formatMetrics platform cEnv now rt ver ex l memU cpuU).statistics.stdDev
      = JSReal.num (Real.sqrt (specVariance l : ℝ)) := by
    rw [hrad]
    simp only [jsSqrt]
    rw [if_neg (not_lt.mpr (specVariance_nonneg l))]
  refine ⟨hmain, ?_, ?_⟩
  · intro hall
    rw [hmain, specVariance_all_eq l hall]
    simp
  · intro hdist
    exact ⟨Real.sqrt (specVariance l : ℝ), hmain,
      Real.sqrt_pos.mpr (by exact_mod_cast specVariance_pos l hne hdist)⟩

/-- C6 witness: `durations = [10, 10]` — all identical, stdDev `0`. -/
theorem statistics_stdDev_population_witness :
    (formatMetrics "linux" none "t5" "node" "v20" "exp" [10, 10] sampleMem sampleCpu).statistics.stdDev
      = JSReal.num 0 :=
  (statistics_stdDev_population "linux" none "t5" "node" "v20" "exp" sampleMem sampleCpu
      [10, 10] (by decide)).2.1 (by decide)

/-- C10: the order statistics of every report on non-empty `durations`
are mutually consistent — `median ≤ p95 ≤ p99` — and each of the three
is an element of the input `durations`. -/
theorem statistics_order_consistent (platform : String) (cEnv : Option String)
    (now rt ver ex : String) (memU : MemPair) (cpuU : CpuPair)
    (l : List ℚ) (hne : l ≠ []) :
    ∃ m x95 x99 : ℚ,
      (formatMetrics platform cEnv now rt ver ex l memU cpuU).statistics.median = JSVal.num m
      ∧ (formatMetrics platform cEnv now rt ver ex l memU cpuU).statistics.p95 = JSVal.num x95
      ∧ (formatMetrics platform cEnv now rt ver ex l memU cpuU).statistics.p99 = JSVal.num x99
      ∧ m ≤ x95 ∧ x95 ≤ x99 ∧ m ∈ l ∧ x95 ∈ l ∧ x99 ∈ l := by
  have hlen0 : l.length ≠ 0 := by simpa using hne
  have hmlt : l.length / 2 < (l.insertionSort (· ≤ ·)).length := by
    rw [sortedCopy_length]
    omega
  have h95lt : 19 * l.length / 20 < (l.insertionSort (· ≤ ·)).length := by
    rw [sortedCopy_length]
    exact p95Idx_lt _ hlen0
  have h99lt : 99 * l.length / 100 < (l.insertionSort (· ≤ ·)).length := by
    rw [sortedCopy_length]
    exact p99Idx_lt _ hlen0
  have hidxm : jsFloorNat (((l.insertionSort (· ≤ ·)).length : ℚ) / 2) = l.length / 2 := by
    rw [sortedCopy_length]
    exact jsFloorNat_half _
  have hidx95 : jsFloorNat (((l.insertionSort (· ≤ ·)).length : ℚ) * 0.95)
      = 19 * l.length / 20 := by
    rw [sortedCopy_length]
    exact jsFloorNat_p95 _
  have hidx99 : jsFloorNat (((l.insertionSort (· ≤ ·)).length : ℚ) * 0.99)
      = 99 * l.length / 100 := by
    rw [sortedCopy_length]
    exact jsFloorNat_p99 _
  refine ⟨(l.insertionSort (· ≤ ·)).get ⟨l.length / 2, hmlt⟩,
    (l.insertionSort (· ≤ ·)).get ⟨19 * l.length / 20, h95lt⟩,
    (l.insertionSort (· ≤ ·)).get ⟨99 * l.length / 100, h99lt⟩,
    ?_, ?_, ?_, ?_, ?_, ?_, ?_, ?_⟩
  · rw [median_def, hidxm, jsIndex_eq_get _ _ hmlt]
  · rw [p95_def, hidx95, jsIndex_eq_get _ _ h95lt]
  · rw [p99_def, hidx99, jsIndex_eq_get _ _ h99lt]
  · exact (sortedCopy_sorted l).rel_get_of_le (Fin.mk_le_mk.mpr (medianIdx_le_p95Idx _))
  · exact (sortedCopy_sorted l).rel_get_of_le (Fin.mk_le_mk.mpr (p95Idx_le_p99Idx _))
  · exact (sortedCopy_perm l).mem_iff.mp (List.get_mem _ _ _)
  · exact (sortedCopy_perm l).mem_iff.mp (List.get_mem _ _ _)
  · exact (sortedCopy_perm l).mem_iff.mp (List.get_mem _ _ _)

/-- C10 witness: `durations = [100, 200, 300, 400, 500]`. -/
theorem statistics_order_consistent_witness :
    ∃ m x95 x99 : ℚ,
      (formatMetrics "linux" none "t6" "node" "v20" "exp" [100, 200, 300, 400, 500]
          sampleMem sampleCpu).statistics.median = JSVal.num m
      ∧ (formatMetrics "linux" none "t6" "node" "v20" "exp" [100, 200, 300, 400, 500]
          sampleMem sampleCpu).statistics.p95 = JSVal.num x95
      ∧ (formatMetrics "linux" none "t6" "node" "v20" "exp" [100, 200, 300, 400, 500]
          sampleMem sampleCpu).statistics.p99 = JSVal.num x99
      ∧ m ≤ x95 ∧ x95 ≤ x99
      ∧ m ∈ ([100, 200, 300, 400, 500] : List ℚ)
      ∧ x95 ∈ ([100, 200, 300, 400, 500] : List ℚ)
      ∧ x99 ∈ ([100, 200, 300, 400, 500] : List ℚ) :=
  statistics_order_consistent "linux" none "t6" "node" "v20" "exp" sampleMem sampleCpu
    [100, 200, 300, 400, 500] (by decide)

end RuntimeBench
